import Mathlib

/-!
Shallow embedding of the order/cart core of `app.py` (Bandhan-24):
the catalog price computation, the session cart, the checkout handler
("Place Order"), the sheet-backed order ledger
(`save_orders_to_sheet` / `get_user_orders`), and the "My Orders"
grouped display.  Python dicts are modelled as insertion-ordered
association lists, worksheet cells as a `Value` sum of strings and
integers, and the float price computation by exact binary64
round-to-nearest-even arithmetic over `ℚ`.
-/

namespace Bandhan

/-- A worksheet cell value: gspread stores strings, and
`get_all_records` parses purely numeric cells back as Python ints. -/
inductive Value where
  | str (s : String)
  | int (n : ℤ)
deriving DecidableEq

/-- Coercion of a cell value to text, as `astype(str)` does in pandas. -/
def Value.toText : Value → String
  | .str s => s
  | .int n => toString n

/-- One catalog entry of `rakhi_catalog` (`app.py` lines 100-206). -/
structure Product where
  title : String
  price : ℕ
  discount : ℕ
  image : String
deriving DecidableEq

/-- One entry of the session cart dict `st.session_state.cart[key]`
(`app.py` lines 253-257). -/
structure CartLine where
  title : String
  price : ℤ
  quantity : ℤ
deriving DecidableEq

/-- The session cart: a Python dict from product key to cart line,
modelled as an insertion-ordered association list. -/
abbrev Cart := List (String × CartLine)

/-- One order dict appended by the Place Order handler
(`app.py` lines 287-299), with its eleven keys in insertion order. -/
structure OrderRow where
  orderId : String
  product : String
  quantity : ℤ
  unitPrice : ℤ
  subtotal : ℤ
  name : String
  phone : String
  address : String
  pincode : String
  referenceBy : String
  timestamp : String
deriving DecidableEq

/-! ### Binary64 model for the price computation

`final_price = int(item["price"] * (1 - item["discount"] / 100))`
(`app.py` line 244) runs in Python float (IEEE-754 binary64)
arithmetic.  Each float operation is modelled exactly: the true
rational result of the operation is rounded to 53 significant bits
with round-to-nearest, ties-to-even.  Rationals are represented as
unreduced fractions (`Frac`) so that every step is plain `ℕ`/`ℤ`
arithmetic the kernel can evaluate. -/

/-- An exact (unreduced) fraction `num / den` with `den > 0` at every
use site. -/
structure Frac where
  num : ℤ
  den : ℕ
deriving DecidableEq

/-- Exact difference of two fractions. -/
def Frac.sub (a b : Frac) : Frac :=
  ⟨a.num * (b.den : ℤ) - b.num * (a.den : ℤ), a.den * b.den⟩

/-- Exact product of two fractions. -/
def Frac.mul (a b : Frac) : Frac :=
  ⟨a.num * b.num, a.den * b.den⟩

/-- Largest `k ≤ fuel` with `2 ^ k * den ≤ num`, i.e. the binary
exponent of `num / den ≥ 1` (fuelled structural recursion). -/
def posExpF : ℕ → ℕ → ℕ → ℕ
  | 0, _, _ => 0
  | fuel + 1, num, den => if num < 2 * den then 0 else posExpF fuel num (2 * den) + 1

/-- Smallest `k ≤ fuel` with `den ≤ num * 2 ^ k`, for `0 < num < den`:
the negated binary exponent of `num / den < 1`. -/
def negExpF : ℕ → ℕ → ℕ → ℕ
  | 0, _, _ => 0
  | fuel + 1, num, den => if den ≤ num then 0 else negExpF fuel (2 * num) den + 1

/-- Round the positive value `num / den` to the nearest binary64 value
(round-to-nearest, ties-to-even), returned as an exact dyadic
fraction.  Valid throughout the binary64 normal range, which covers
every value arising in `final_price`. -/
def roundPos (num den : ℕ) : ℕ × ℕ :=
  let e : ℤ := if den ≤ num then (posExpF 1100 num den : ℤ) else -(negExpF 1100 num den : ℤ)
  let mn : ℕ := if 52 ≤ e then num else num * 2 ^ (52 - e).toNat
  let md : ℕ := if 52 ≤ e then den * 2 ^ (e - 52).toNat else den
  let f : ℕ := mn / md
  let r : ℕ := mn % md
  let n : ℕ :=
    if 2 * r < md then f
    else if md < 2 * r then f + 1
    else if f % 2 = 0 then f else f + 1
  if 52 ≤ e then (n * 2 ^ (e - 52).toNat, 1) else (n, 2 ^ (52 - e).toNat)

/-- Round a fraction to the nearest binary64 value (sign-symmetric,
zero maps to zero). -/
def roundDouble (x : Frac) : Frac :=
  if x.num = 0 then ⟨0, 1⟩
  else if x.num < 0 then
    let p := roundPos (-x.num).toNat x.den
    ⟨-(p.1 : ℤ), p.2⟩
  else
    let p := roundPos x.num.toNat x.den
    ⟨(p.1 : ℤ), p.2⟩

/-- Python `int()` applied to a float value: truncation toward zero. -/
def pyInt (x : Frac) : ℤ :=
  if 0 ≤ x.num then ((x.num.toNat / x.den : ℕ) : ℤ)
  else -(((-x.num).toNat / x.den : ℕ) : ℤ)

/-- `final_price = int(item["price"] * (1 - item["discount"] / 100))`
(`app.py` line 244), with every float operation correctly rounded to
binary64. -/
def final_price (price discount : ℕ) : ℤ :=
  let d : Frac := roundDouble ⟨(discount : ℤ), 100⟩
  let factor : Frac := roundDouble (Frac.sub ⟨1, 1⟩ d)
  let prod : Frac := roundDouble (Frac.mul ⟨(price : ℤ), 1⟩ factor)
  pyInt prod

/-- The price a product would have under exact (real) arithmetic:
`floor(base_price * (1 - discount_percent / 100))`.  For
`discount ≤ 100` the operand is `price * (100 - discount) / 100 ≥ 0`,
whose floor is natural-number division. -/
def exactPrice (price discount : ℕ) : ℤ :=
  ((price * (100 - discount)) / 100 : ℕ)

/-- The hard-coded catalog `rakhi_catalog` (`app.py` lines 100-206),
in source order; line 207 re-sorts it by descending discount, which
does not change membership. -/
def rakhi_catalog : List (String × Product) :=
  [ ("IMG_20250707_221915", ⟨"Elegant Thread Rakhi", 120, 40, "v1753726754/IMG_20250707_221915.jpg"⟩)
  , ("IMG_20250707_222238", ⟨"Traditional Beads Rakhi", 120, 40, "v1753726756/IMG_20250707_222238.jpg"⟩)
  , ("IMG_20250707_222103", ⟨"Simple Grace Rakhi", 80, 20, "v1753726757/IMG_20250707_222103.jpg"⟩)
  , ("IMG_20250707_222735", ⟨"Royal Red Rakhi", 80, 20, "v1753726761/IMG_20250707_222735.jpg"⟩)
  , ("IMG_20250707_222554", ⟨"Pearl Designer Rakhi", 120, 40, "v1753726762/IMG_20250707_222554.jpg"⟩)
  , ("IMG_20250729_114338_1", ⟨"Golden Stone Rakhi", 150, 45, "v1753777815.jpg"⟩)
  , ("IMG_20250729_114339_1", ⟨"Rustic Charm Rakhi", 130, 40, "v1753777816.jpg"⟩)
  , ("IMG_20250729_114339_2", ⟨"Twin Pearl Rakhi", 110, 30, "v1753777817.jpg"⟩)
  , ("IMG_20250729_114338_2", ⟨"Red Feather Rakhi", 140, 40, "v1753777818.jpg"⟩)
  , ("IMG_20250729_114339_3", ⟨"Antique Emblem Rakhi", 135, 40, "v1753777819.jpg"⟩)
  , ("IMG_20250729_114340_1", ⟨"Threaded Diamond Rakhi", 160, 50, "v1753777820.jpg"⟩)
  , ("IMG_20250729_114340_2", ⟨"Zari Pearl Rakhi", 115, 30, "v1753777821.jpg"⟩)
  , ("IMG_20250729_114341_1", ⟨"Elegant Floral Rakhi", 125, 30, "v1753777822.jpg"⟩)
  , ("IMG_20250729_114340_3", ⟨"Red Gemstone Rakhi", 145, 40, "v1753777823.jpg"⟩)
  , ("IMG_20250729_114341_2", ⟨"Classic Rudraksha Rakhi", 95, 20, "v1753777824.jpg"⟩)
  , ("IMG_20250729_114342_1", ⟨"Minimal Designer Rakhi", 105, 25, "v1753777825.jpg"⟩)
  , ("IMG_20250729_114342_2", ⟨"Silver Stone Rakhi", 135, 40, "v1753777826.jpg"⟩)
  ]

/-! ### Cart operations (`app.py` lines 249-268) -/

/-- The Add to Cart handler (`app.py` lines 249-257): if `key` is
already in the session cart dict its quantity is incremented,
otherwise a new entry is inserted at the end with the displayed
`final_price` snapshot. -/
def addToCart (cart : Cart) (key : String) (item : Product) (qty : ℤ) : Cart :=
  if cart.any (fun kv => kv.1 == key) then
    cart.map (fun kv =>
      if kv.1 == key then (kv.1, { kv.2 with quantity := kv.2.quantity + qty }) else kv)
  else
    cart ++ [(key, { title := item.title
                     price := final_price item.price item.discount
                     quantity := qty })]

/-- The cart-total loop (`app.py` lines 263-268): `total_price` is the
sum over cart lines of `price * quantity`. -/
def cartTotal (cart : Cart) : ℤ :=
  cart.foldl (fun total kv => total + kv.2.price * kv.2.quantity) 0

/-! ### Checkout materialization (`app.py` lines 282-299) -/

/-- The order-row loop of the Place Order handler (`app.py` lines
285-299): one `OrderRow` per cart line, denormalizing the order id,
customer fields and timestamp onto every row. -/
def materializeOrders (cart : Cart) (oid ts nm ph addr pin ref : String) :
    List OrderRow :=
  cart.map (fun kv =>
    { orderId := oid
      product := kv.2.title
      quantity := kv.2.quantity
      unitPrice := kv.2.price
      subtotal := kv.2.price * kv.2.quantity
      name := nm
      phone := ph
      address := addr
      pincode := pin
      referenceBy := ref
      timestamp := ts })

/-! ### The sheet-backed order ledger (`app.py` lines 75-95)

The worksheet is a two-dimensional grid of cells; `append_row` adds
one row at the bottom.  `list(order_rows[0].keys())` is the insertion
order of the dict literal built at lines 287-299, i.e. the fixed
eleven column names. -/

/-- The worksheet contents: every stored row, header included. -/
abbrev Grid := List (List Value)

/-- `list(row.keys())` for any order dict built by the Place Order
handler: Python dicts preserve the insertion order of lines 287-299. -/
def rowKeys (_ : OrderRow) : List String :=
  ["Order ID", "Product", "Quantity", "Unit Price", "Subtotal", "Name",
   "Phone", "Address", "Pincode", "Reference By", "Timestamp"]

/-- `list(row.values())` for an order dict, in the same insertion
order.  Strings stay strings; quantities and prices are Python ints. -/
def rowValues (r : OrderRow) : List Value :=
  [.str r.orderId, .str r.product, .int r.quantity, .int r.unitPrice,
   .int r.subtotal, .str r.name, .str r.phone, .str r.address,
   .str r.pincode, .str r.referenceBy, .str r.timestamp]

/-- `save_orders_to_sheet` (`app.py` lines 75-85).  The network calls
may fail (gspread raises); `netOk = false` models such a failure, in
which case no write takes effect and the exception propagates.  With
the network up, an empty worksheet first receives the header row
`list(order_rows[0].keys())` — an `IndexError` if `order_rows` is
empty — and then one row per order dict is appended in input order. -/
def save_orders_to_sheet (netOk : Bool) (grid : Grid) (order_rows : List OrderRow) :
    Except String Grid :=
  if netOk = false then .error "gspread APIError"
  else if grid.isEmpty then
    match order_rows with
    | [] => .error "IndexError: list index out of range"
    | r :: _ => .ok (((rowKeys r).map Value.str) :: order_rows.map rowValues)
  else .ok (grid ++ order_rows.map rowValues)

/-- Reading one data row back as a record, as gspread's
`get_all_records` does: header keys are zipped with cell values, and
purely numeric cells come back as Python ints. -/
def decodeRow : List Value → Option OrderRow
  | [o, p, .int q, .int u, .int s, n, ph, a, pi, r, t] =>
    some ⟨o.toText, p.toText, q, u, s, n.toText, ph.toText, a.toText,
          pi.toText, r.toText, t.toText⟩
  | _ => none

/-- `sheet.get_all_records()`: every row after the header row, as
records; an empty worksheet (or a worksheet holding only the header)
yields no records. -/
def get_all_records (grid : Grid) : List OrderRow :=
  match grid with
  | [] => []
  | _ :: data => data.filterMap decodeRow

/-- The value returned by `get_user_orders`: a pandas `DataFrame`,
reduced to its column names and its rows. -/
structure OrdersView where
  columns : List String
  rows : List OrderRow
deriving DecidableEq

/-- Python's `str.strip()`: drop leading and trailing whitespace. -/
def pyStrip (s : String) : String :=
  ⟨((s.data.dropWhile Char.isWhitespace).reverse.dropWhile Char.isWhitespace).reverse⟩

/-- `df["Phone"] = df["Phone"].astype(str).str.strip()` applied to one
row (`app.py` line 94). -/
def normalizePhone (r : OrderRow) : OrderRow :=
  { r with phone := pyStrip r.phone }

/-- `get_user_orders` (`app.py` lines 87-95): with no data rows it
returns an empty frame carrying the documented eleven-column schema;
otherwise every row's phone is trimmed and the frame is filtered on
equality with the trimmed query phone, preserving row order. -/
def get_user_orders (grid : Grid) (phone_number : String) : OrdersView :=
  let data := get_all_records grid
  if data.isEmpty then
    ⟨["Order ID", "Product", "Quantity", "Unit Price", "Subtotal", "Name",
      "Phone", "Address", "Pincode", "Reference By", "Timestamp"], []⟩
  else
    ⟨match grid with
      | [] => []
      | h :: _ => h.map Value.toText,
     (data.map normalizePhone).filter (fun r => r.phone == pyStrip phone_number)⟩

/-! ### The Place Order handler (`app.py` lines 278-313) -/

/-- What the Place Order handler reports to the user. -/
inductive CheckoutOutcome where
  | validationError
  | persistenceError (msg : String)
  | placed (oid : String)
deriving DecidableEq

/-- State after the Place Order handler ran: the worksheet, the
session cart, and the message shown. -/
structure HandlerResult where
  outcome : CheckoutOutcome
  grid : Grid
  cart : Cart
deriving DecidableEq

/-- The Place Order handler (`app.py` lines 278-313).  Empty (falsy)
`name`, `address` or `pincode` aborts with "Please complete all
fields." before anything else; otherwise the order rows are
materialized and written via `save_orders_to_sheet`.  An exception
from the write propagates out of the script run, so the cart-clearing
assignment at line 313 is never reached; only after a successful
write is the cart reset to `{}`. -/
def placeOrder (netOk : Bool) (grid : Grid) (cart : Cart)
    (nm addr pin ref ph oid ts : String) : HandlerResult :=
  if nm = "" ∨ addr = "" ∨ pin = "" then
    ⟨.validationError, grid, cart⟩
  else
    let orders := materializeOrders cart oid ts nm ph addr pin ref
    match save_orders_to_sheet netOk grid orders with
    | .error msg => ⟨.persistenceError msg, grid, cart⟩
    | .ok g => ⟨.placed oid, g, []⟩

/-! ### The My Orders grouped display (`app.py` lines 325-334)

`df.groupby("Order ID")` iterates its groups in sorted key order
(pandas `groupby` defaults to `sort=True`); each group holds the rows
with that key in frame order.  Python compares strings
lexicographically by code point, which is `lexLe` below. -/

/-- Lexicographic comparison of character lists by code point:
Python's string ordering. -/
def lexLe : List Char → List Char → Bool
  | [], _ => true
  | _ :: _, [] => false
  | a :: as, b :: bs => if a < b then true else if b < a then false else lexLe as bs

/-- Python's `<=` on strings. -/
def strLe (a b : String) : Prop := lexLe a.data b.data = true

instance : DecidableRel strLe := fun a b =>
  inferInstanceAs (Decidable (lexLe a.data b.data = true))

/-- The distinct order ids of a row sequence in order of first
appearance (what iteration order would be if `groupby` preserved
appearance order). -/
def firstAppearanceIds (rows : List OrderRow) : List String :=
  rows.foldl (fun acc r => if r.orderId ∈ acc then acc else acc ++ [r.orderId]) []

/-- The iteration of `for oid, group in df.groupby("Order ID")`
(`app.py` lines 326-327): distinct keys in ascending sorted order,
each paired with the rows carrying that key, in frame order. -/
def displayGroups (rows : List OrderRow) : List (String × List OrderRow) :=
  ((firstAppearanceIds rows).insertionSort strLe).map
    (fun k => (k, rows.filter (fun r => r.orderId == k)))

/-! ### Theorems -/

/-- Claim C6: adding a product already present in the cart increments
that line's quantity rather than creating a duplicate entry: adding
`q1` then `q2` of one product to an empty cart yields exactly one cart
line with quantity `q1 + q2` and unit price equal to the product's
effective price at the first add, and the result is the same with
`q1` and `q2` swapped. -/
theorem claim_C6 (key : String) (item : Product) (q1 q2 : ℤ)
    (h1 : 1 ≤ q1) (h2 : 1 ≤ q2) :
    addToCart (addToCart [] key item q1) key item q2 =
      [(key, ⟨item.title, final_price item.price item.discount, q1 + q2⟩)] ∧
    addToCart (addToCart [] key item q2) key item q1 =
      [(key, ⟨item.title, final_price item.price item.discount, q1 + q2⟩)] := by
  constructor <;> simp [addToCart] <;> omega

/-- Witness for C6 at a concrete product and quantities. -/
theorem claim_C6_witness :
    addToCart (addToCart [] "IMG_20250707_221915"
        ⟨"Elegant Thread Rakhi", 120, 40, "img"⟩ 2) "IMG_20250707_221915"
        ⟨"Elegant Thread Rakhi", 120, 40, "img"⟩ 3 =
      [("IMG_20250707_221915", ⟨"Elegant Thread Rakhi",
        final_price 120 40, 5⟩)] :=
  (claim_C6 "IMG_20250707_221915" ⟨"Elegant Thread Rakhi", 120, 40, "img"⟩
    2 3 (by decide) (by decide)).1

/-- Claim C1: for a cart holding two distinct products, a successful
checkout materializes exactly two order rows sharing one order id and
one timestamp, each row's subtotal is its unit price times its
quantity, and the two subtotals sum to the cart's total. -/
theorem claim_C1 (grid : Grid) (k1 k2 : String) (d1 d2 : CartLine)
    (hk : k1 ≠ k2) (oid ts nm ph addr pin ref : String)
    (hn : nm ≠ "") (ha : addr ≠ "") (hp : pin ≠ "") :
    (materializeOrders [(k1, d1), (k2, d2)] oid ts nm ph addr pin ref).length = 2 ∧
    (∀ r ∈ materializeOrders [(k1, d1), (k2, d2)] oid ts nm ph addr pin ref,
      r.orderId = oid ∧ r.timestamp = ts ∧ r.subtotal = r.unitPrice * r.quantity) ∧
    ((materializeOrders [(k1, d1), (k2, d2)] oid ts nm ph addr pin ref).map
        (fun r => r.subtotal)).sum = cartTotal [(k1, d1), (k2, d2)] ∧
    (placeOrder true grid [(k1, d1), (k2, d2)] nm addr pin ref ph oid ts).outcome =
      .placed oid := by
  refine ⟨rfl, ?_, ?_, ?_⟩
  · intro r hr
    simp only [materializeOrders, List.map_cons, List.map_nil, List.mem_cons,
      List.not_mem_nil, or_false] at hr
    rcases hr with hr | hr <;> subst hr <;> exact ⟨rfl, rfl, rfl⟩
  · simp [materializeOrders, cartTotal]
  · simp only [placeOrder, hn, ha, hp, false_or, or_self, ite_false]
    cases grid <;> simp [save_orders_to_sheet, materializeOrders]

/-- Witness for C1 at a concrete cart and customer. -/
theorem claim_C1_witness :
    (materializeOrders [("k1", ⟨"A", 72, 1⟩), ("k2", ⟨"B", 64, 2⟩)]
      "oid1" "2025-08-01 10:00:00" "N" "9876543210" "Addr" "800001" "").length = 2 ∧
    (∀ r ∈ materializeOrders [("k1", ⟨"A", 72, 1⟩), ("k2", ⟨"B", 64, 2⟩)]
      "oid1" "2025-08-01 10:00:00" "N" "9876543210" "Addr" "800001" "",
      r.orderId = "oid1" ∧ r.timestamp = "2025-08-01 10:00:00" ∧
      r.subtotal = r.unitPrice * r.quantity) ∧
    ((materializeOrders [("k1", ⟨"A", 72, 1⟩), ("k2", ⟨"B", 64, 2⟩)]
      "oid1" "2025-08-01 10:00:00" "N" "9876543210" "Addr" "800001" "").map
        (fun r => r.subtotal)).sum =
      cartTotal [("k1", ⟨"A", 72, 1⟩), ("k2", ⟨"B", 64, 2⟩)] ∧
    (placeOrder true [] [("k1", ⟨"A", 72, 1⟩), ("k2", ⟨"B", 64, 2⟩)]
      "N" "Addr" "800001" "" "9876543210" "oid1" "2025-08-01 10:00:00").outcome =
      .placed "oid1" :=
  claim_C1 [] "k1" "k2" ⟨"A", 72, 1⟩ ⟨"B", 64, 2⟩ (by decide)
    "oid1" "2025-08-01 10:00:00" "N" "9876543210" "Addr" "800001" ""
    (by decide) (by decide) (by decide)

/-- Claim C3 (amended): checkout is rejected — with the worksheet and
cart untouched — if and only if name, address or pincode is the empty
string; whitespace-only values are truthy and pass the check, and an
empty reference_by never causes rejection. -/
theorem claim_C3 (netOk : Bool) (grid : Grid) (cart : Cart) (hc : cart ≠ [])
    (nm addr pin ref ph oid ts : String) :
    ((placeOrder netOk grid cart nm addr pin ref ph oid ts).outcome =
        .validationError ↔ (nm = "" ∨ addr = "" ∨ pin = "")) ∧
    ((nm = "" ∨ addr = "" ∨ pin = "") →
      (placeOrder netOk grid cart nm addr pin ref ph oid ts).grid = grid ∧
      (placeOrder netOk grid cart nm addr pin ref ph oid ts).cart = cart) := by
  by_cases h : nm = "" ∨ addr = "" ∨ pin = ""
  · simp [placeOrder, h]
  · refine ⟨?_, fun hh => absurd hh h⟩
    simp only [placeOrder, if_neg h]
    constructor
    · intro hout
      exfalso
      revert hout
      cases save_orders_to_sheet netOk grid
          (materializeOrders cart oid ts nm ph addr pin ref) <;> simp
    · intro hh
      exact absurd hh h

/-- Witness for C3 at a concrete cart, with an empty name rejected. -/
theorem claim_C3_witness :
    ((placeOrder true [] [("k", ⟨"T", 72, 1⟩)] "" "A" "800001" "" "ph" "oid"
        "ts").outcome = .validationError ↔
      ("" = "" ∨ "A" = "" ∨ "800001" = "")) ∧
    (("" = "" ∨ "A" = "" ∨ "800001" = "") →
      (placeOrder true [] [("k", ⟨"T", 72, 1⟩)] "" "A" "800001" "" "ph" "oid"
        "ts").grid = [] ∧
      (placeOrder true [] [("k", ⟨"T", 72, 1⟩)] "" "A" "800001" "" "ph" "oid"
        "ts").cart = [("k", ⟨"T", 72, 1⟩)]) :=
  claim_C3 true [] [("k", ⟨"T", 72, 1⟩)] (by decide) "" "A" "800001" "" "ph"
    "oid" "ts"

/-- Counterexample to C3 as stated: a whitespace-only name `" "` is
not rejected — the order is placed and two worksheet rows (header and
order line) are written, so the ledger row count changes. -/
theorem counterexample_C3 :
    (placeOrder true [] [("k", ⟨"T", 72, 1⟩)] " " "Addr" "800001" "" "ph"
        "oid" "ts").outcome ≠ .validationError ∧
    (placeOrder true [] [("k", ⟨"T", 72, 1⟩)] " " "Addr" "800001" "" "ph"
        "oid" "ts").outcome = .placed "oid" ∧
    (placeOrder true [] [("k", ⟨"T", 72, 1⟩)] " " "Addr" "800001" "" "ph"
        "oid" "ts").grid.length = 2 ∧ ([] : Grid).length = 0 := by
  refine ⟨?_, rfl, rfl, rfl⟩
  decide

/-- Claim C2: if the ledger write fails during checkout, the cart is
preserved and a persistence failure is surfaced; and whenever the cart
ends up cleared, the write succeeded (the cart is cleared only after a
successful write). -/
theorem claim_C2 (grid : Grid) (cart : Cart) (hc : cart ≠ [])
    (nm addr pin ref ph oid ts : String)
    (hn : nm ≠ "") (ha : addr ≠ "") (hp : pin ≠ "") :
    (∃ msg, placeOrder false grid cart nm addr pin ref ph oid ts =
      ⟨.persistenceError msg, grid, cart⟩) ∧
    (∀ netOk, (placeOrder netOk grid cart nm addr pin ref ph oid ts).cart = [] →
      (placeOrder netOk grid cart nm addr pin ref ph oid ts).outcome = .placed oid) := by
  have hv : ¬(nm = "" ∨ addr = "" ∨ pin = "") := by simp [hn, ha, hp]
  constructor
  · refine ⟨"gspread APIError", ?_⟩
    simp [placeOrder, hv, save_orders_to_sheet]
  · intro netOk hcart
    revert hcart
    simp only [placeOrder, if_neg hv]
    cases save_orders_to_sheet netOk grid
        (materializeOrders cart oid ts nm ph addr pin ref) <;> simp
    intro hcart
    exact absurd hcart hc

/-- Witness for C2 at a concrete cart and customer. -/
theorem claim_C2_witness :
    (∃ msg, placeOrder false [] [("k", ⟨"T", 72, 1⟩)] "N" "Addr" "800001" ""
        "ph" "oid" "ts" = ⟨.persistenceError msg, [], [("k", ⟨"T", 72, 1⟩)]⟩) ∧
    (∀ netOk, (placeOrder netOk [] [("k", ⟨"T", 72, 1⟩)] "N" "Addr" "800001" ""
        "ph" "oid" "ts").cart = [] →
      (placeOrder netOk [] [("k", ⟨"T", 72, 1⟩)] "N" "Addr" "800001" ""
        "ph" "oid" "ts").outcome = .placed "oid") :=
  claim_C2 [] [("k", ⟨"T", 72, 1⟩)] (by decide) "N" "Addr" "800001" "" "ph"
    "oid" "ts" (by decide) (by decide) (by decide)

/-- Claim C10: `save_orders_to_sheet` reads `order_rows[0]` to build
the header, so on an empty worksheet it fails for an empty row list;
for the rows materialized from any non-empty cart — the only way the
checkout handler calls it — the write succeeds. -/
theorem claim_C10 (grid : Grid) (cart : Cart) (hc : cart ≠ [])
    (oid ts nm ph addr pin ref : String) :
    (∃ g, save_orders_to_sheet true grid
        (materializeOrders cart oid ts nm ph addr pin ref) = .ok g) ∧
    (∃ e, save_orders_to_sheet true [] ([] : List OrderRow) = .error e) := by
  refine ⟨?_, ⟨"IndexError: list index out of range", rfl⟩⟩
  cases cart with
  | nil => exact absurd rfl hc
  | cons c cs =>
    cases grid <;> exact ⟨_, rfl⟩

/-- Witness for C10 at a concrete non-empty cart. -/
theorem claim_C10_witness :
    (∃ g, save_orders_to_sheet true []
        (materializeOrders [("k", ⟨"T", 72, 1⟩)] "oid" "ts" "N" "ph" "Addr"
          "800001" "") = .ok g) ∧
    (∃ e, save_orders_to_sheet true [] ([] : List OrderRow) = .error e) :=
  claim_C10 [] [("k", ⟨"T", 72, 1⟩)] (by decide) "oid" "ts" "N" "ph" "Addr"
    "800001" ""

/-- Claim C9: a successful write puts a header row first exactly when
the worksheet holds no rows at all, with exactly the eleven documented
column names in order (the keys of the first order dict); when any row
is already present no second header is written, and one data row is
appended per order row in input order. -/
theorem claim_C9 (grid : Grid) (rows : List OrderRow) (g : Grid)
    (h : save_orders_to_sheet true grid rows = .ok g) :
    (grid = [] → ∃ r rest, rows = r :: rest ∧
      g = ((rowKeys r).map Value.str) :: rows.map rowValues ∧
      rowKeys r = ["Order ID", "Product", "Quantity", "Unit Price", "Subtotal",
                   "Name", "Phone", "Address", "Pincode", "Reference By",
                   "Timestamp"]) ∧
    (grid ≠ [] → g = grid ++ rows.map rowValues) := by
  cases grid with
  | nil =>
    cases rows with
    | nil => simp [save_orders_to_sheet] at h
    | cons r rest =>
      simp only [save_orders_to_sheet] at h
      norm_num at h
      refine ⟨fun _ => ⟨r, rest, rfl, ?_, rfl⟩, fun hne => absurd rfl hne⟩
      exact h.symm
  | cons hd tl =>
    simp only [save_orders_to_sheet] at h
    norm_num at h
    exact ⟨fun he => by simp at he, fun _ => h.symm⟩

/-- Witness for C9: writing one order row to an empty worksheet. -/
theorem claim_C9_witness :
    (([] : Grid) = [] → ∃ r rest,
      ([⟨"oid", "T", 1, 72, 72, "N", "ph", "A", "800001", "", "ts"⟩] :
        List OrderRow) = r :: rest ∧
      ((rowKeys r).map Value.str) ::
        ([⟨"oid", "T", 1, 72, 72, "N", "ph", "A", "800001", "", "ts"⟩] :
          List OrderRow).map rowValues =
        ((rowKeys r).map Value.str) ::
        ([⟨"oid", "T", 1, 72, 72, "N", "ph", "A", "800001", "", "ts"⟩] :
          List OrderRow).map rowValues ∧
      rowKeys r = ["Order ID", "Product", "Quantity", "Unit Price", "Subtotal",
                   "Name", "Phone", "Address", "Pincode", "Reference By",
                   "Timestamp"]) ∧
    (([] : Grid) ≠ [] →
      ((rowKeys (⟨"oid", "T", 1, 72, 72, "N", "ph", "A", "800001", "", "ts"⟩ :
        OrderRow)).map Value.str) ::
        ([⟨"oid", "T", 1, 72, 72, "N", "ph", "A", "800001", "", "ts"⟩] :
          List OrderRow).map rowValues =
      [] ++ ([⟨"oid", "T", 1, 72, 72, "N", "ph", "A", "800001", "", "ts"⟩] :
        List OrderRow).map rowValues) :=
  claim_C9 []
    [⟨"oid", "T", 1, 72, 72, "N", "ph", "A", "800001", "", "ts"⟩] _ rfl

/-- The rows returned by `get_user_orders` are exactly the records of
the worksheet, phone-normalized and filtered on the stripped query
phone, in ledger order (both branches of the definition). -/
theorem get_user_orders_rows (grid : Grid) (p : String) :
    (get_user_orders grid p).rows =
      ((get_all_records grid).map normalizePhone).filter
        (fun r => r.phone == pyStrip p) := by
  unfold get_user_orders
  by_cases h : (get_all_records grid).isEmpty
  · rw [if_pos h]
    rw [List.isEmpty_iff] at h
    rw [h]
    rfl
  · rw [if_neg h]

/-- Claim C4: `get_user_orders` returns exactly those ledger rows
whose phone, coerced to string and stripped, equals the stripped query
phone, preserving ledger row order; with no data rows it returns an
empty frame carrying the documented eleven-column schema. -/
theorem claim_C4 (grid : Grid) (p : String) :
    (get_user_orders grid p).rows =
      ((get_all_records grid).map normalizePhone).filter
        (fun r => r.phone == pyStrip p) ∧
    (get_all_records grid = [] →
      get_user_orders grid p =
        ⟨["Order ID", "Product", "Quantity", "Unit Price", "Subtotal", "Name",
          "Phone", "Address", "Pincode", "Reference By", "Timestamp"], []⟩) := by
  refine ⟨get_user_orders_rows grid p, fun h => ?_⟩
  unfold get_user_orders
  rw [if_pos (by simp [h])]

/-- Witness for C4: the empty ledger yields the schema-only frame. -/
theorem claim_C4_witness :
    get_user_orders ([] : Grid) "000" =
      ⟨["Order ID", "Product", "Quantity", "Unit Price", "Subtotal", "Name",
        "Phone", "Address", "Pincode", "Reference By", "Timestamp"], []⟩ :=
  (claim_C4 [] "000").2 rfl

/-- Decoding a row written by `rowValues` recovers the order row. -/
theorem decodeRow_rowValues (r : OrderRow) : decodeRow (rowValues r) = some r := rfl

/-- Reading back rows written by `rowValues` recovers the order rows. -/
theorem filterMap_decodeRow_rowValues (rows : List OrderRow) :
    (rows.map rowValues).filterMap decodeRow = rows := by
  induction rows with
  | nil => rfl
  | cons r rs ih => simp [List.filterMap_cons, decodeRow_rowValues, ih]

/-- Claim C7: rows materialized at checkout and written to the ledger
read back, via the phone query, as exactly the written rows (appended
after the customer's earlier rows), with every field value equal to
the value written.  The handler writes an already-stripped phone
(`str(st.session_state.user_phone).strip()`), captured by the
hypotheses. -/
theorem claim_C7 (grid : Grid) (rows : List OrderRow) (p : String) (g : Grid)
    (hne : rows ≠ []) (hph : ∀ r ∈ rows, r.phone = p) (hp : pyStrip p = p)
    (hsave : save_orders_to_sheet true grid rows = .ok g) :
    (get_user_orders g p).rows = (get_user_orders grid p).rows ++ rows := by
  have hfilter : ∀ l : List OrderRow, (∀ r ∈ l, r.phone = p) →
      (l.map normalizePhone).filter (fun r => r.phone == pyStrip p) = l := by
    intro l
    induction l with
    | nil => intro _; rfl
    | cons r rs ih =>
      intro hl
      have hr : r.phone = p := hl r (List.mem_cons_self r rs)
      have hnorm : normalizePhone r = r := by
        unfold normalizePhone
        rw [hr, hp, ← hr]
      have htail := ih (fun x hx => hl x (List.mem_cons_of_mem r hx))
      rw [hp] at htail ⊢
      simp [List.filter_cons, hnorm, hr, htail]
  cases grid with
  | nil =>
    cases rows with
    | nil => exact absurd rfl hne
    | cons r0 rest =>
      have hg : g = ((rowKeys r0).map Value.str) :: (r0 :: rest).map rowValues := by
        simp only [save_orders_to_sheet] at hsave
        norm_num at hsave
        exact hsave.symm
      subst hg
      rw [get_user_orders_rows, get_user_orders_rows]
      have hrec : get_all_records
          (((rowKeys r0).map Value.str) :: (r0 :: rest).map rowValues) =
          r0 :: rest := filterMap_decodeRow_rowValues (r0 :: rest)
      rw [hrec, hfilter _ hph]
      rfl
  | cons hd tl =>
    have hg : g = (hd :: tl) ++ rows.map rowValues := by
      simp only [save_orders_to_sheet] at hsave
      norm_num at hsave
      exact hsave.symm
    subst hg
    rw [get_user_orders_rows, get_user_orders_rows]
    have hrec : get_all_records ((hd :: tl) ++ rows.map rowValues) =
        get_all_records (hd :: tl) ++ rows := by
      show (tl ++ rows.map rowValues).filterMap decodeRow =
        tl.filterMap decodeRow ++ rows
      rw [List.filterMap_append, filterMap_decodeRow_rowValues]
    rw [hrec, List.map_append, List.filter_append, hfilter _ hph]

/-- Witness for C7: one row written to an empty ledger reads back. -/
theorem claim_C7_witness :
    (get_user_orders
      (((rowKeys (⟨"oid", "T", 1, 72, 72, "N", "9876543210", "A", "800001",
          "", "ts"⟩ : OrderRow)).map Value.str) ::
        ([⟨"oid", "T", 1, 72, 72, "N", "9876543210", "A", "800001", "", "ts"⟩] :
          List OrderRow).map rowValues)
      "9876543210").rows =
    (get_user_orders ([] : Grid) "9876543210").rows ++
      [⟨"oid", "T", 1, 72, 72, "N", "9876543210", "A", "800001", "", "ts"⟩] :=
  claim_C7 []
    [⟨"oid", "T", 1, 72, 72, "N", "9876543210", "A", "800001", "", "ts"⟩]
    "9876543210" _ (by decide) (by decide) (by decide) rfl

/-- `lexLe` is total. -/
theorem lexLe_total (a : List Char) : ∀ b, lexLe a b = true ∨ lexLe b a = true := by
  induction a with
  | nil => intro b; left; rfl
  | cons x xs ih =>
    intro b
    cases b with
    | nil => right; rfl
    | cons y ys =>
      rcases lt_trichotomy x y with h | h | h
      · left; simp [lexLe, h]
      · subst h; simpa [lexLe, lt_irrefl] using ih ys
      · right; simp [lexLe, h]

/-- `lexLe` is transitive. -/
theorem lexLe_trans {a b c : List Char} (h1 : lexLe a b = true)
    (h2 : lexLe b c = true) : lexLe a c = true := by
  induction a generalizing b c with
  | nil => rfl
  | cons x xs ih =>
    cases b with
    | nil => simp [lexLe] at h1
    | cons y ys =>
      cases c with
      | nil => simp [lexLe] at h2
      | cons z zs =>
        by_cases hxy : x < y
        · by_cases hyz : y < z
          · simp [lexLe, lt_trans hxy hyz]
          · by_cases hzy : z < y
            · simp [lexLe, hyz, hzy] at h2
            · have hyz' : y = z := le_antisymm (not_lt.mp hzy) (not_lt.mp hyz)
              subst hyz'
              simp [lexLe, hxy]
        · by_cases hyx : y < x
          · simp [lexLe, hxy, hyx] at h1
          · have hxy' : x = y := le_antisymm (not_lt.mp hyx) (not_lt.mp hxy)
            subst hxy'
            simp only [lexLe, lt_irrefl, if_false] at h1
            by_cases hxz : x < z
            · simp [lexLe, hxz]
            · by_cases hzx : z < x
              · simp [lexLe, hxz, hzx] at h2
              · have hxz' : x = z := le_antisymm (not_lt.mp hzx) (not_lt.mp hxz)
                subst hxz'
                simp only [lexLe, lt_irrefl, if_false] at h2 ⊢
                exact ih h1 h2

instance : IsTotal String strLe := ⟨fun a b => lexLe_total a.data b.data⟩

instance : IsTrans String strLe := ⟨fun _ _ _ h1 h2 => lexLe_trans h1 h2⟩

/-- Membership in the first-appearance fold: a key occurs iff it was
in the accumulator or is the order id of some row. -/
theorem faFold_mem (l : List OrderRow) (acc : List String) (k : String) :
    (k ∈ l.foldl
        (fun acc r => if r.orderId ∈ acc then acc else acc ++ [r.orderId]) acc) ↔
      k ∈ acc ∨ ∃ r ∈ l, r.orderId = k := by
  induction l generalizing acc with
  | nil => simp
  | cons r rs ih =>
    simp only [List.foldl_cons]
    by_cases h : r.orderId ∈ acc
    · rw [if_pos h, ih]
      constructor
      · rintro (hk | ⟨x, hx, hxk⟩)
        · exact .inl hk
        · exact .inr ⟨x, List.mem_cons_of_mem _ hx, hxk⟩
      · rintro (hk | ⟨x, hx, hxk⟩)
        · exact .inl hk
        · rcases List.mem_cons.mp hx with h' | h''
          · exact .inl ((h' ▸ hxk) ▸ h)
          · exact .inr ⟨x, h'', hxk⟩
    · rw [if_neg h, ih]
      constructor
      · rintro (hk | ⟨x, hx, hxk⟩)
        · rcases List.mem_append.mp hk with hk' | hk'
          · exact .inl hk'
          · exact .inr ⟨r, List.mem_cons_self r rs,
              (List.mem_singleton.mp hk').symm⟩
        · exact .inr ⟨x, List.mem_cons_of_mem _ hx, hxk⟩
      · rintro (hk | ⟨x, hx, hxk⟩)
        · exact .inl (List.mem_append.mpr (.inl hk))
        · rcases List.mem_cons.mp hx with h' | h''
          · exact .inl (List.mem_append.mpr
              (.inr (List.mem_singleton.mpr (h' ▸ hxk).symm)))
          · exact .inr ⟨x, h'', hxk⟩

/-- The first-appearance fold preserves distinctness of keys. -/
theorem faFold_nodup (l : List OrderRow) (acc : List String)
    (hacc : acc.Nodup) :
    (l.foldl
      (fun acc r => if r.orderId ∈ acc then acc else acc ++ [r.orderId]) acc).Nodup := by
  induction l generalizing acc with
  | nil => exact hacc
  | cons r rs ih =>
    simp only [List.foldl_cons]
    by_cases h : r.orderId ∈ acc
    · rw [if_pos h]; exact ih _ hacc
    · rw [if_neg h]; exact ih _ (by simp [List.nodup_append, hacc, h])

/-- Claim C5 (amended): the My Orders display partitions the filtered
rows by order id into groups iterated in ascending sorted key order
(pandas `groupby` sorts keys; it does not preserve first-appearance
order); keys are distinct, every row of a group carries the group's
key, and every row lands in the group of its own key — so each row
belongs to exactly one group. -/
theorem claim_C5 (rows : List OrderRow) :
    List.Sorted strLe ((displayGroups rows).map Prod.fst) ∧
    ((displayGroups rows).map Prod.fst).Nodup ∧
    (∀ p ∈ displayGroups rows, ∀ r ∈ p.2, r.orderId = p.1) ∧
    (∀ r ∈ rows, ∃ g, (r.orderId, g) ∈ displayGroups rows ∧ r ∈ g) := by
  have hmap : (displayGroups rows).map Prod.fst =
      (firstAppearanceIds rows).insertionSort strLe := by
    unfold displayGroups
    rw [List.map_map]
    exact List.map_id _
  refine ⟨?_, ?_, ?_, ?_⟩
  · rw [hmap]; exact List.sorted_insertionSort strLe _
  · rw [hmap]
    exact ((List.perm_insertionSort strLe _).nodup_iff).mpr
      (faFold_nodup rows [] List.nodup_nil)
  · intro p hp r hr
    simp only [displayGroups, List.mem_map] at hp
    obtain ⟨k, _, rfl⟩ := hp
    simpa using (List.mem_filter.mp hr).2
  · intro r hr
    refine ⟨rows.filter (fun x => x.orderId == r.orderId), ?_, ?_⟩
    · have hfa : r.orderId ∈ firstAppearanceIds rows :=
        (faFold_mem rows [] r.orderId).mpr (.inr ⟨r, hr, rfl⟩)
      exact List.mem_map.mpr
        ⟨r.orderId, (List.perm_insertionSort strLe _).mem_iff.mpr hfa, rfl⟩
    · exact List.mem_filter.mpr ⟨hr, by simp⟩

/-- Witness for C5 at a one-row sequence. -/
theorem claim_C5_witness :
    List.Sorted strLe
      ((displayGroups [⟨"a", "T", 1, 1, 1, "N", "p", "A", "P", "", "ts"⟩]).map
        Prod.fst) ∧
    ((displayGroups [⟨"a", "T", 1, 1, 1, "N", "p", "A", "P", "", "ts"⟩]).map
      Prod.fst).Nodup ∧
    (∀ p ∈ displayGroups [⟨"a", "T", 1, 1, 1, "N", "p", "A", "P", "", "ts"⟩],
      ∀ r ∈ p.2, r.orderId = p.1) ∧
    (∀ r ∈ ([⟨"a", "T", 1, 1, 1, "N", "p", "A", "P", "", "ts"⟩] :
        List OrderRow),
      ∃ g, (r.orderId, g) ∈
        displayGroups [⟨"a", "T", 1, 1, 1, "N", "p", "A", "P", "", "ts"⟩] ∧
        r ∈ g) :=
  claim_C5 [⟨"a", "T", 1, 1, 1, "N", "p", "A", "P", "", "ts"⟩]

/-- Counterexample to C5 as stated: with order ids appearing in the
order `"b", "a"`, the display iterates the groups as `"a", "b"` —
sorted order, not first-appearance order. -/
theorem counterexample_C5 :
    (displayGroups [⟨"b", "T", 1, 1, 1, "N", "p", "A", "P", "", "ts"⟩,
                    ⟨"a", "T", 1, 1, 1, "N", "p", "A", "P", "", "ts"⟩]).map
        Prod.fst = ["a", "b"] ∧
    firstAppearanceIds [⟨"b", "T", 1, 1, 1, "N", "p", "A", "P", "", "ts"⟩,
                        ⟨"a", "T", 1, 1, 1, "N", "p", "A", "P", "", "ts"⟩] =
      ["b", "a"] ∧
    (displayGroups [⟨"b", "T", 1, 1, 1, "N", "p", "A", "P", "", "ts"⟩,
                    ⟨"a", "T", 1, 1, 1, "N", "p", "A", "P", "", "ts"⟩]).map
        Prod.fst ≠
      firstAppearanceIds [⟨"b", "T", 1, 1, 1, "N", "p", "A", "P", "", "ts"⟩,
                          ⟨"a", "T", 1, 1, 1, "N", "p", "A", "P", "", "ts"⟩] := by
  refine ⟨?_, ?_, ?_⟩ <;> decide

/-- For `discount ≤ 100`, `exactPrice` is the floor of the exact
rational `price * (1 - discount / 100)`. -/
theorem exactPrice_eq_floor (p d : ℕ) (hd : d ≤ 100) :
    exactPrice p d = ⌊(p : ℚ) * (1 - (d : ℚ) / 100)⌋ := by
  have h : (p : ℚ) * (1 - (d : ℚ) / 100) =
      ((p * (100 - d) : ℕ) : ℤ) / ((100 : ℕ) : ℚ) := by
    push_cast [Nat.cast_sub hd]
    ring
  rw [h, Rat.floor_intCast_div_natCast]
  unfold exactPrice
  push_cast
  rfl

/-- Claim C8: for every product in the catalog, the displayed
effective price `int(price * (1 - discount / 100))`, computed in
binary64 floats, equals `floor(price * (1 - discount / 100))` over
exact arithmetic, and is at most the base price. -/
theorem claim_C8 : ∀ pr ∈ rakhi_catalog,
    final_price pr.2.price pr.2.discount =
      ⌊(pr.2.price : ℚ) * (1 - (pr.2.discount : ℚ) / 100)⌋ ∧
    final_price pr.2.price pr.2.discount ≤ (pr.2.price : ℤ) := by
  intro pr hpr
  have h : pr.2.discount ≤ 100 ∧
      final_price pr.2.price pr.2.discount = exactPrice pr.2.price pr.2.discount ∧
      final_price pr.2.price pr.2.discount ≤ (pr.2.price : ℤ) := by
    fin_cases hpr <;> exact ⟨by decide, by decide, by decide⟩
  exact ⟨h.2.1.trans (exactPrice_eq_floor _ _ h.1), h.2.2⟩

/-- Witness for C8 at the first catalog product. -/
theorem claim_C8_witness :
    final_price 120 40 = ⌊(120 : ℚ) * (1 - (40 : ℚ) / 100)⌋ ∧
    final_price 120 40 ≤ (120 : ℤ) :=
  claim_C8 ("IMG_20250707_221915",
      ⟨"Elegant Thread Rakhi", 120, 40,
        "v1753726754/IMG_20250707_221915.jpg"⟩)
    (by decide)

end Bandhan
